import Mathlib

/-!
Verification development for the Gender-Equality-and-Sustainability toolkit.

The development embeds the two source modules as executable Lean functions:

* `completeness.py` — `Completeness_Ranker.rank_indicators_by_completeness`,
  which retrieves an indicator catalog, fetches yearly observations per
  indicator with per-item fault isolation, computes one completeness ratio per
  indicator against a shared denominator, and returns the ranked table.
* `data_handler.py` — `Data_Handler.reshape_long_HDI`, `get_data_HDI` and
  `get_data_EPI`, the wide-to-long reshaper and the two CSV-backed filtered
  loaders.

External effects are passed in explicitly: the World Bank provider becomes a
pair of oracles (catalog result, per-code fetch result), a CSV file becomes the
parsed table it denotes, and a folder becomes a lookup from file path to parsed
table.  Python/pandas exceptions become an explicit error type; numeric cells
are rationals; missing cells and missing lookups are `Option`/`Cell.na`.
String primitives are re-implemented over character lists (the pandas string
methods used by the source: lower, strip, single-character replace and split,
prefix test, integer parse) so that every definition evaluates inside Lean.
-/

/-- ASCII lowering of a string, modelling the Python str.lower and the pandas
.str.lower used by the source on ASCII column and country names. -/
def strLower (s : String) : String := String.mk (s.data.map Char.toLower)

/-- Whitespace strip at both ends, modelling str.strip. -/
def strTrim (s : String) : String :=
  String.mk (((s.data.dropWhile Char.isWhitespace).reverse.dropWhile Char.isWhitespace).reverse)

/-- Replace every space by an underscore, modelling the columns transform
.str.replace of a single space by an underscore. -/
def strUnderscore (s : String) : String :=
  String.mk (s.data.map fun c => if c = ' ' then '_' else c)

/-- Column-name standardisation used by both loaders (data_handler.py lines
54-59 and line 111): strip, lowercase, spaces to underscores. -/
def normName (s : String) : String := strUnderscore (strLower (strTrim s))

/-- Prefix test on strings, modelling str.startswith. -/
def strIsPrefixOf (p s : String) : Bool := p.data.isPrefixOf s.data

/-- Split a character list on a separator character; never returns the empty
list of groups. -/
def splitChars (sep : Char) : List Char → List (List Char)
  | [] => [[]]
  | c :: cs =>
    if c = sep then [] :: splitChars sep cs
    else
      match splitChars sep cs with
      | [] => [[c]]
      | r :: rs => (c :: r) :: rs

/-- Split on a one-character separator, modelling str.split for the
one-character separators the source uses (underscore and dot). -/
def strSplitOn (sep : Char) (s : String) : List String :=
  (splitChars sep s.data).map String.mk

/-- Join with a separator, the inverse direction of `strSplitOn`. -/
def strJoin (sep : String) : List String → String
  | [] => ""
  | [x] => x
  | x :: xs => x ++ sep ++ strJoin sep xs

/-- Value of a decimal digit character. -/
def digitVal (c : Char) : Option Nat :=
  if '0' ≤ c ∧ c ≤ '9' then some (c.toNat - '0'.toNat) else none

/-- Parse a nonempty all-digit character list as a natural number. -/
def parseDigits (cs : List Char) : Option Nat :=
  match cs with
  | [] => none
  | _ =>
    cs.foldl
      (fun acc c =>
        match acc, digitVal c with
        | some a, some d => some (a * 10 + d)
        | _, _ => none)
      (some 0)

/-- Integer parse modelling the Python int conversion applied by astype(int) to
the year strings occurring in column names. -/
def parseInt (s : String) : Option Int :=
  match s.data with
  | '-' :: rest => (parseDigits rest).map fun n => -(n : Int)
  | cs => (parseDigits cs).map fun n => (n : Int)

/-- Elementwise monadic map over Except, stopping at the first failure, as the
row-wise casts of the source do. -/
def mapME {α β : Type} (f : α → Except Err β) : List α → Except Err (List β)
  | [] => .ok []
  | a :: l => do
    let b ← f a
    let bs ← mapME f l
    .ok (b :: bs)

/-- One table cell: missing (pandas NaN), a string, or a number. -/
inductive Cell where
  | na : Cell
  | str : String → Cell
  | num : ℚ → Cell
  deriving DecidableEq, Repr

/-- Exceptions raised by the embedded code, by Python class. -/
inductive Err where
  | keyError : String → Err
  | valueError : String → Err
  | typeError : String → Err
  | fileNotFound : String → Err
  deriving DecidableEq, Repr

/-- A parsed table: named columns and rows of cells aligned positionally with
the column list. -/
structure DF where
  cols : List String
  rows : List (List Cell)
  deriving DecidableEq, Repr

/-- Cell of a row under a column name; the first matching column is used, a
missing column or a short row yields a missing cell. -/
def cellAt (cols : List String) (r : List Cell) (name : String) : Cell :=
  match cols.findIdx? (· = name) with
  | some i => r.getD i Cell.na
  | none => Cell.na

/-- Standardise all column names of a table. -/
def normalizeCols (df : DF) : DF := ⟨df.cols.map normName, df.rows⟩

/-- Identifier columns of the HDI reshaper (data_handler.py line 13). -/
def hdiIdVars : List String := ["iso3", "country", "region"]

/-- Value columns: every column whose name starts with a mapping key followed
by an underscore (data_handler.py lines 16-19). -/
def hdiValueVars (cols : List String) (indicators : List (String × String)) : List String :=
  cols.filter fun col => indicators.any fun kv => strIsPrefixOf (kv.1 ++ "_") col

/-- One melted HDI row before year extraction. -/
structure MeltHDI where
  iso3 : Cell
  country : Cell
  region : Cell
  metric_year : String
  value : Cell
  deriving DecidableEq, Repr

/-- pandas melt for the HDI table (data_handler.py lines 21-26): column-major
unpivot over the given value columns; raises KeyError when an id column is
absent from the table. -/
def meltHDI (df : DF) (value_vars : List String) : Except Err (List MeltHDI) :=
  if hdiIdVars.all (df.cols.contains ·) then
    .ok (value_vars.flatMap fun v => df.rows.map fun r =>
      ⟨cellAt df.cols r "iso3", cellAt df.cols r "country", cellAt df.cols r "region",
        v, cellAt df.cols r v⟩)
  else .error (.keyError "id_vars not present in the DataFrame")

/-- Split a column name on its last underscore into metric and year part,
modelling str.rsplit with one split from the right. -/
def rsplitUnderscore (s : String) : String × String :=
  match (strSplitOn '_' s).reverse with
  | [] => (s, "")
  | last :: revRest => (strJoin "_" revRest.reverse, last)

/-- One long-format HDI row. -/
structure LongHDI where
  iso3 : Cell
  country : Cell
  region : Cell
  value : Cell
  metric : String
  year : Int
  metric_name : Option String
  deriving DecidableEq, Repr

/-- Year extraction and metric-name lookup for one melted row (data_handler.py
lines 29-34): the integer cast raises ValueError when the suffix is not an
integer; the mapping lookup yields a missing name, never an exception. -/
def hdiLongRow (indicators : List (String × String)) (m : MeltHDI) : Except Err LongHDI :=
  let p := rsplitUnderscore m.metric_year
  match parseInt p.2 with
  | some y => .ok ⟨m.iso3, m.country, m.region, m.value, p.1, y, List.lookup p.1 indicators⟩
  | none => .error (.valueError "invalid literal for int")

/-- Data_Handler.reshape_long_HDI (data_handler.py lines 8-36): unpivot the
wide HDI columns into long format, split metric and year, attach readable
metric names. -/
def reshape_long_HDI (df : DF) (indicators : List (String × String)) : Except Err (List LongHDI) := do
  let melted ← meltHDI df (hdiValueVars df.cols indicators)
  mapME (hdiLongRow indicators) melted

/-- Row-keep predicate of the country filter (data_handler.py lines 64-67 and
136-139): kept iff the lowercased country cell is in the lowercased filter
list; a non-string cell is never kept (the pandas .str accessor turns it into
a missing value, and isin is false on it). -/
def countryKeep (cs : List String) (c : Cell) : Bool :=
  match c with
  | .str s => (cs.map strLower).contains (strLower s)
  | _ => false

/-- The optional country-filter block shared by both loaders (data_handler.py
lines 64-67 and 136-139): skipped when countries is absent. -/
def applyCountryFilter {α : Type} (getc : α → Cell) (countries : Option (List String))
    (l : List α) : List α :=
  match countries with
  | none => l
  | some cs => l.filter fun r => countryKeep cs (getc r)

/-- The optional lower year bound of get_data_HDI (data_handler.py lines
70-71): skipped when start_year is absent. -/
def applyLowerBound {α : Type} (gety : α → Int) (start_year : Option Int) (l : List α) : List α :=
  match start_year with
  | none => l
  | some s => l.filter fun r => s ≤ gety r

/-- The optional upper year bound of get_data_HDI (data_handler.py lines
72-73): skipped when end_year is absent. -/
def applyUpperBound {α : Type} (gety : α → Int) (end_year : Option Int) (l : List α) : List α :=
  match end_year with
  | none => l
  | some e => l.filter fun r => gety r ≤ e

/-- Data_Handler.get_data_HDI (data_handler.py lines 38-75) with the parsed
CSV supplied as a table (file reading and Latin-1 decoding stay outside the
model): standardise column names, reshape to long, then apply the optional
country filter and the optional inclusive year bounds. -/
def get_data_HDI (df0 : DF) (indicators : List (String × String))
    (countries : Option (List String)) (start_year end_year : Option Int) :
    Except Err (List LongHDI) := do
  let long ← reshape_long_HDI (normalizeCols df0) indicators
  .ok (applyUpperBound (fun r => r.year) end_year
    (applyLowerBound (fun r => r.year) start_year
      (applyCountryFilter (fun r => r.country) countries long)))

/-- One melted EPI row before year extraction. -/
structure MeltEPI where
  iso : Cell
  country : Cell
  metric_year : String
  value : Cell
  deriving DecidableEq, Repr

/-- One long-format EPI row; `var_code` embeds the source column named
variable, which is a reserved word here. -/
structure LongEPI where
  iso : Cell
  country : Cell
  value : Cell
  year : Int
  var_code : String
  variable_name : String
  deriving DecidableEq, Repr

/-- Year extraction for one melted EPI row (data_handler.py line 125): the
text after the last dot, cast to an integer. -/
def epiLongRow (var var_name : String) (m : MeltEPI) : Except Err LongEPI :=
  match (strSplitOn '.' m.metric_year).reverse with
  | [] => .error (.valueError "empty split")
  | last :: _ =>
    match parseInt last with
    | some y => .ok ⟨m.iso, m.country, m.value, y, var, var_name⟩
    | none => .error (.valueError "invalid literal for int")

/-- Load and reshape the file of one EPI variable (data_handler.py lines
102-130): existence check, column standardisation, year-column selection,
unpivot on iso and country, year extraction, constant metadata columns. -/
def epiLoadVar (files : String → Option DF) (folder_path var var_name : String) :
    Except Err (List LongEPI) :=
  let filename := folder_path ++ "/" ++ var ++ "_ind_na.csv"
  match files filename with
  | none => .error (.fileNotFound ("File " ++ filename ++ " not found."))
  | some df0 =>
    let df := normalizeCols df0
    let year_cols := df.cols.filter fun col => strIsPrefixOf (strLower var ++ ".ind.") col
    if ["iso", "country"].all (df.cols.contains ·) then
      mapME (epiLongRow var var_name)
        (year_cols.flatMap fun v => df.rows.map fun r =>
          (⟨cellAt df.cols r "iso", cellAt df.cols r "country", v, cellAt df.cols r v⟩ : MeltEPI))
    else .error (.keyError "id_vars not present in the DataFrame")

/-- Data_Handler.get_data_EPI (data_handler.py lines 77-144) with the folder
contents supplied as a lookup from file path to parsed table: per-variable
load in mapping order (the first failure aborts the call), concatenation,
optional country filter, then the mandatory year filter — comparing the year
column with a missing bound raises TypeError, exactly as the unconditional
pandas comparison does. -/
def get_data_EPI (files : String → Option DF) (indicators : List (String × String))
    (countries : Option (List String)) (start_year end_year : Option Int)
    (folder_path : String) : Except Err (List LongEPI) := do
  let tables ← mapME (fun kv => epiLoadVar files folder_path kv.1 kv.2) indicators
  let result := applyCountryFilter (fun r => r.country) countries tables.flatten
  match start_year, end_year with
  | some s, some e => .ok (result.filter fun r => s ≤ r.year ∧ r.year ≤ e)
  | _, _ => .error (.typeError "comparison between int and NoneType")

/-- One observation as returned by the World Bank provider for one indicator:
country name, date string, optional value. -/
structure WBPoint where
  country : String
  date : String
  value : Option ℚ
  deriving DecidableEq, Repr

/-- One row of the accumulated observation table (completeness.py line 38). -/
structure DFRow where
  indicator : String
  country : String
  date : String
  value : Option ℚ
  deriving DecidableEq, Repr

/-- One row of the completeness summary table (completeness.py line 53). -/
structure SRow where
  code : String
  name : String
  completeness : ℚ
  count : Nat
  deriving DecidableEq, Repr

/-- Python dict insertion: an existing key keeps its position and takes the
new value, a new key is appended at the end. -/
def dictInsert (k v : String) : List (String × String) → List (String × String)
  | [] => [(k, v)]
  | kv :: rest => if kv.1 = k then (k, v) :: rest else kv :: dictInsert k v rest

/-- The dict comprehension over the catalog entries (completeness.py line
14), with Python insertion-order semantics. -/
def pyDict (l : List (String × String)) : List (String × String) :=
  l.foldl (fun d kv => dictInsert kv.1 kv.2 d) []

/-- Rows contributed by one indicator to the accumulated table (completeness.py
lines 26-35): on a successful fetch, the points with non-missing value tagged
with the code; a failed fetch is swallowed and contributes nothing. -/
def fetchBlock (fetch : String → Except Unit (List WBPoint)) (code : String) : List DFRow :=
  match fetch code with
  | .error _ => []
  | .ok pts => (pts.filter fun p => p.value ≠ none).map fun p => ⟨code, p.country, p.date, p.value⟩

/-- The accumulated observation table over all catalog codes in order. -/
def fetchAll (dict : List (String × String)) (fetch : String → Except Unit (List WBPoint)) :
    List DFRow :=
  dict.flatMap fun kv => fetchBlock fetch kv.1

/-- Shared denominator (completeness.py line 44): number of distinct countries
in the accumulated table times the length of the requested year range. -/
def totalPossible (df : List DFRow) (start_year end_year : Int) : Int :=
  ((df.map fun r => r.country).dedup.length : Int) * (end_year - start_year + 1)

/-- Per-indicator completeness rows in catalog order (completeness.py lines
43-50): count of accumulated rows for the code, ratio against the shared
denominator, zero when the denominator is not positive. -/
def rankResults (dict : List (String × String)) (df : List DFRow)
    (start_year end_year : Int) : List SRow :=
  dict.map fun kv =>
    let count := (df.filter fun r => r.indicator = kv.1).length
    ⟨kv.1, kv.2,
      if 0 < totalPossible df start_year end_year then
        (count : ℚ) / ((totalPossible df start_year end_year : Int) : ℚ)
      else 0,
      count⟩

/-- Descending insertion on completeness, the step function of `sortDesc`. -/
def insertDesc (x : SRow) : List SRow → List SRow
  | [] => [x]
  | y :: ys => if y.completeness ≤ x.completeness then x :: y :: ys else y :: insertDesc x ys

/-- Models sort_values(by=Completeness, ascending=False) on the summary frame
(completeness.py line 54).  The source guarantees only that the result is a
permutation of the rows that is non-increasing in completeness: with the
default quicksort kind (numpy introsort, not stable beyond its small-array
cutoff) the relative order of rows with equal completeness is
implementation-defined.  Being executable, this model must fix one admissible
tie order; the development only ever uses that `sortDesc` permutes its input,
never the modelled tie order. -/
def sortDesc : List SRow → List SRow
  | [] => []
  | x :: xs => insertDesc x (sortDesc xs)

/-- Valid year argument of datetime.datetime (completeness.py line 21):
outside MINYEAR..MAXYEAR the constructor raises ValueError. -/
def validYear (y : Int) : Bool := 1 ≤ y && y ≤ 9999

/-- Body of the try block (completeness.py lines 20-56): date-range
construction (the one failure point of the body besides the per-indicator
fetches, which are already isolated by the inner handler), accumulation,
completeness computation and sort. -/
def tryBody (dict : List (String × String)) (fetch : String → Except Unit (List WBPoint))
    (start_year end_year : Int) : Except Unit (List SRow × List DFRow) :=
  if validYear start_year && validYear end_year then
    let df := fetchAll dict fetch
    .ok (sortDesc (rankResults dict df start_year end_year), df)
  else .error ()

/-- Completeness_Ranker.rank_indicators_by_completeness (completeness.py lines
7-62): catalog retrieval happens before the try block, so its failure
propagates; every failure inside the try block is converted by the handler
into the returned pair (None, None); top_n is accepted but never used. -/
def rank_indicators_by_completeness (catalog : Except Unit (List (String × String)))
    (fetch : String → Except Unit (List WBPoint)) (start_year end_year : Int)
    (top_n : Nat) : Except Unit (Option (List SRow) × Option (List DFRow)) :=
  match catalog with
  | .error e => .error e
  | .ok inds =>
    let dict := pyDict inds
    match tryBody dict fetch start_year end_year with
    | .ok (top, df) => .ok (some top, some df)
    | .error _ => .ok (none, none)

/-- Provider contract for one fetch result under annual frequency over the
requested range: among the non-missing points, the (country, date) pairs are
pairwise distinct and at most end_year - start_year + 1 distinct dates occur. -/
def validFetchB (res : Except Unit (List WBPoint)) (start_year end_year : Int) : Bool :=
  match res with
  | .error _ => true
  | .ok pts =>
    let kept := pts.filter fun p => p.value ≠ none
    decide (kept.map fun p => (p.country, p.date)).Nodup &&
      decide ((kept.map fun p => p.date).dedup.length ≤ (end_year - start_year + 1).toNat)

/-- Total version of `hdiLongRow`, defined on rows whose year suffix parses;
used to describe the successful output of the reshaper. -/
def hdiLongRowT (indicators : List (String × String)) (m : MeltHDI) : LongHDI :=
  ⟨m.iso3, m.country, m.region, m.value, (rsplitUnderscore m.metric_year).1,
    (parseInt (rsplitUnderscore m.metric_year).2).getD 0,
    List.lookup (rsplitUnderscore m.metric_year).1 indicators⟩

/-- A small concrete HDI wide table used to instantiate theorems. -/
def exampleHDI : DF :=
  ⟨["iso3", "country", "region", "edu_2010", "edu_2011"],
    [[Cell.str "USA", Cell.str "United States", Cell.na, Cell.num 1, Cell.na],
     [Cell.str "FRA", Cell.str "France", Cell.str "EU", Cell.num 2, Cell.num 3]]⟩

/-- A small concrete metric mapping used to instantiate theorems. -/
def exampleMapping : List (String × String) := [("edu", "Education Index")]

/-- Auxiliary: a monadic map over Except succeeds elementwise. -/
theorem aux_mapME_ok {α β : Type} (f : α → Except Err β) (g : α → β) :
    ∀ l : List α, (∀ a ∈ l, f a = .ok (g a)) → mapME f l = .ok (l.map g) := by
  intro l
  induction l with
  | nil => intro _; rfl
  | cons a l ih =>
    intro h
    have ha := h a (by simp)
    have hl := ih fun b hb => h b (by simp [hb])
    simp [mapME, ha, hl, List.map_cons]
    rfl

/-- Auxiliary: descending insertion is a permutation of consing. -/
theorem aux_insertDesc_perm (x : SRow) (l : List SRow) : (insertDesc x l).Perm (x :: l) := by
  induction l with
  | nil => simp [insertDesc]
  | cons y ys ih =>
    by_cases h : y.completeness ≤ x.completeness
    · simp [insertDesc, h]
    · simp only [insertDesc, if_neg h]
      exact (ih.cons y).trans (List.Perm.swap x y ys)

/-- Auxiliary: the modelled sort is a permutation of its input. -/
theorem aux_sortDesc_perm (l : List SRow) : (sortDesc l).Perm l := by
  induction l with
  | nil => simp [sortDesc]
  | cons x xs ih =>
    exact (aux_insertDesc_perm x (sortDesc xs)).trans (ih.cons x)

/-- Auxiliary: keys after a dict insertion. -/
theorem aux_dictInsert_keys_mem (k v k' : String) (d : List (String × String)) :
    k' ∈ (dictInsert k v d).map Prod.fst ↔ k' = k ∨ k' ∈ d.map Prod.fst := by
  induction d with
  | nil => simp [dictInsert]
  | cons kv rest ih =>
    by_cases h : kv.1 = k
    · subst h
      simp [dictInsert]
    · simp [dictInsert, h, ih]
      tauto

/-- Auxiliary: dict insertion preserves distinctness of keys. -/
theorem aux_dictInsert_keys_nodup (k v : String) (d : List (String × String))
    (h : (d.map Prod.fst).Nodup) : ((dictInsert k v d).map Prod.fst).Nodup := by
  induction d with
  | nil => simp [dictInsert]
  | cons kv rest ih =>
    rw [List.map_cons, List.nodup_cons] at h
    rcases h with ⟨hk, hrest⟩
    by_cases hkk : kv.1 = k
    · subst hkk
      simpa [dictInsert] using List.nodup_cons.mpr ⟨hk, hrest⟩
    · simp only [dictInsert, if_neg hkk, List.map_cons]
      refine List.nodup_cons.mpr ⟨?_, ih hrest⟩
      intro hmem
      rcases (aux_dictInsert_keys_mem k v kv.1 rest).mp hmem with h1 | h1
      · exact hkk h1
      · exact hk h1

/-- Auxiliary: a Python dict always has pairwise distinct keys. -/
theorem aux_pyDict_keys_nodup (l : List (String × String)) :
    ((pyDict l).map Prod.fst).Nodup := by
  have main : ∀ (l acc : List (String × String)), (acc.map Prod.fst).Nodup →
      ((l.foldl (fun d kv => dictInsert kv.1 kv.2 d) acc).map Prod.fst).Nodup := by
    intro l
    induction l with
    | nil => intro acc h; simpa using h
    | cons kv rest ih =>
      intro acc h
      exact ih _ (aux_dictInsert_keys_nodup kv.1 kv.2 acc h)
  exact main l [] (by simp)

/-- Auxiliary: inserting a fresh key appends it. -/
theorem aux_dictInsert_not_mem (k v : String) (d : List (String × String))
    (h : k ∉ d.map Prod.fst) : dictInsert k v d = d ++ [(k, v)] := by
  induction d with
  | nil => simp [dictInsert]
  | cons kv rest ih =>
    simp only [List.map_cons, List.mem_cons] at h
    push_neg at h
    have hne : ¬ kv.1 = k := fun hk => h.1 hk.symm
    simp [dictInsert, hne, ih h.2]

/-- Auxiliary: on a catalog with distinct codes the Python dict is the catalog
itself, in order. -/
theorem aux_pyDict_eq_self (l : List (String × String)) (h : (l.map Prod.fst).Nodup) :
    pyDict l = l := by
  have main : ∀ (l acc : List (String × String)), ((acc ++ l).map Prod.fst).Nodup →
      l.foldl (fun d kv => dictInsert kv.1 kv.2 d) acc = acc ++ l := by
    intro l
    induction l with
    | nil => intro acc _; simp
    | cons kv rest ih =>
      intro acc hnd
      have hk : kv.1 ∉ acc.map Prod.fst := by
        intro hmem
        have := (List.nodup_append.mp (by simpa using hnd)).2.2
        exact this hmem (by simp)
      have hstep : dictInsert kv.1 kv.2 acc = acc ++ [kv] := aux_dictInsert_not_mem kv.1 kv.2 acc hk
      have happ : ((acc ++ [kv]) ++ rest).map Prod.fst |>.Nodup := by
        simpa [List.append_assoc] using hnd
      calc (kv :: rest).foldl (fun d kv => dictInsert kv.1 kv.2 d) acc
          = rest.foldl (fun d kv => dictInsert kv.1 kv.2 d) (acc ++ [kv]) := by
            simp [List.foldl_cons, hstep]
        _ = (acc ++ [kv]) ++ rest := ih (acc ++ [kv]) happ
        _ = acc ++ (kv :: rest) := by simp
  simpa using main l [] (by simpa using h)

/-- Auxiliary: every row of an indicator's block carries that indicator's code. -/
theorem aux_fetchBlock_indicator (fetch : String → Except Unit (List WBPoint)) (code : String) :
    ∀ r ∈ fetchBlock fetch code, r.indicator = code := by
  intro r hr
  unfold fetchBlock at hr
  cases h : fetch code with
  | error e => rw [h] at hr; simp at hr
  | ok pts =>
    rw [h] at hr
    rcases List.mem_map.mp hr with ⟨p, _, hp⟩
    rw [← hp]

/-- Auxiliary: every accumulated row's code is a dict key. -/
theorem aux_mem_fetchAll (dict : List (String × String))
    (fetch : String → Except Unit (List WBPoint)) :
    ∀ r ∈ fetchAll dict fetch, r.indicator ∈ dict.map Prod.fst := by
  intro r hr
  rcases List.mem_flatMap.mp hr with ⟨kv, hkv, hr2⟩
  rw [aux_fetchBlock_indicator fetch kv.1 r hr2]
  exact List.mem_map.mpr ⟨kv, hkv, rfl⟩

/-- Auxiliary: filtering the accumulated table by a code that is not a dict key
selects nothing. -/
theorem aux_filter_fetchAll_nil (dict : List (String × String))
    (fetch : String → Except Unit (List WBPoint)) (code : String)
    (h : code ∉ dict.map Prod.fst) :
    (fetchAll dict fetch).filter (fun r => r.indicator = code) = [] := by
  rw [List.filter_eq_nil]
  intro r hr
  simp only [decide_eq_true_eq]
  intro hrc
  exact h (hrc ▸ aux_mem_fetchAll dict fetch r hr)

/-- Auxiliary: with distinct dict keys, filtering the accumulated table by a
key selects exactly that indicator's block. -/
theorem aux_filter_fetchAll (fetch : String → Except Unit (List WBPoint)) (code : String) :
    ∀ dict : List (String × String), (dict.map Prod.fst).Nodup → code ∈ dict.map Prod.fst →
      (fetchAll dict fetch).filter (fun r => r.indicator = code) = fetchBlock fetch code := by
  intro dict
  induction dict with
  | nil => intro _ h; simp at h
  | cons kv rest ih =>
    intro hnd hmem
    rw [List.map_cons, List.nodup_cons] at hnd
    have heq : fetchAll (kv :: rest) fetch = fetchBlock fetch kv.1 ++ fetchAll rest fetch := by
      simp [fetchAll]
    rw [heq, List.filter_append]
    by_cases hk : kv.1 = code
    · subst hk
      have h1 : (fetchBlock fetch kv.1).filter (fun r => r.indicator = kv.1) = fetchBlock fetch kv.1 :=
        List.filter_eq_self.mpr fun r hr => by
          simp [aux_fetchBlock_indicator fetch kv.1 r hr]
      rw [h1, aux_filter_fetchAll_nil rest fetch kv.1 hnd.1]
      simp
    · have h1 : (fetchBlock fetch kv.1).filter (fun r => r.indicator = code) = [] := by
        rw [List.filter_eq_nil]
        intro r hr
        simp [aux_fetchBlock_indicator fetch kv.1 r hr, hk]
      have hmem' : code ∈ rest.map Prod.fst := by
        rw [List.map_cons, List.mem_cons] at hmem
        rcases hmem with h | h
        · exact absurd h.symm hk
        · exact h
      rw [h1, ih hnd.2 hmem']
      simp

/-- Auxiliary: under the provider contract, one indicator's block has at most
distinct-countries times range-length rows. -/
theorem aux_block_le (fetch : String → Except Unit (List WBPoint)) (code : String)
    (sy ey : Int) (df : List DFRow)
    (hv : validFetchB (fetch code) sy ey = true)
    (hsub : ∀ r ∈ fetchBlock fetch code, r ∈ df) :
    (fetchBlock fetch code).length ≤
      (df.map fun r => r.country).dedup.length * (ey - sy + 1).toNat := by
  cases hf : fetch code with
  | error e => simp [fetchBlock, hf]
  | ok pts =>
    rw [hf] at hv
    simp only [validFetchB, Bool.and_eq_true, decide_eq_true_eq] at hv
    obtain ⟨hnd, hdates⟩ := hv
    have hblock : fetchBlock fetch code =
        (pts.filter fun p => p.value ≠ none).map fun p => ⟨code, p.country, p.date, p.value⟩ := by
      simp [fetchBlock, hf]
    have hlen : (fetchBlock fetch code).length =
        ((pts.filter fun p => p.value ≠ none).map fun p => (p.country, p.date)).length := by
      simp [hblock]
    have hsubset : ∀ q ∈ (pts.filter fun p => p.value ≠ none).map fun p => (p.country, p.date),
        q ∈ ((df.map fun r => r.country).dedup).toFinset ×ˢ
          (((pts.filter fun p => p.value ≠ none).map fun p => p.date).dedup).toFinset := by
      intro q hq
      rcases List.mem_map.mp hq with ⟨p, hp, hq2⟩
      subst hq2
      refine Finset.mem_product.mpr ⟨?_, ?_⟩
      · have hrow : (⟨code, p.country, p.date, p.value⟩ : DFRow) ∈ df :=
          hsub _ (hblock ▸ List.mem_map.mpr ⟨p, hp, rfl⟩)
        have hc : p.country ∈ df.map fun r => r.country := List.mem_map.mpr ⟨_, hrow, rfl⟩
        simpa [List.mem_toFinset, List.mem_dedup] using hc
      · have hd : p.date ∈ (pts.filter fun p => p.value ≠ none).map fun p => p.date :=
          List.mem_map.mpr ⟨p, hp, rfl⟩
        simpa [List.mem_toFinset, List.mem_dedup] using hd
    have h1 : ((pts.filter fun p => p.value ≠ none).map fun p => (p.country, p.date)).length =
        ((pts.filter fun p => p.value ≠ none).map fun p => (p.country, p.date)).toFinset.card :=
      (List.toFinset_card_of_nodup hnd).symm
    have h3 := Finset.card_le_card fun q hq => hsubset q (List.mem_toFinset.mp hq)
    rw [Finset.card_product] at h3
    have hCcard : ((df.map fun r => r.country).dedup).toFinset.card =
        (df.map fun r => r.country).dedup.length :=
      List.toFinset_card_of_nodup (List.nodup_dedup _)
    have hDcard : (((pts.filter fun p => p.value ≠ none).map fun p => p.date).dedup).toFinset.card ≤
        (ey - sy + 1).toNat := by
      have := List.toFinset_card_of_nodup
        (List.nodup_dedup ((pts.filter fun p => p.value ≠ none).map fun p => p.date))
      rw [this]
      calc ((pts.filter fun p => p.value ≠ none).map fun p => p.date).dedup.length
          ≤ ((pts.filter fun p => p.value ≠ none).map fun p => p.date).dedup.length := le_refl _
        _ ≤ (ey - sy + 1).toNat := hdates
    calc (fetchBlock fetch code).length
        = ((pts.filter fun p => p.value ≠ none).map fun p => (p.country, p.date)).toFinset.card := by
          rw [hlen, h1]
      _ ≤ ((df.map fun r => r.country).dedup).toFinset.card *
            (((pts.filter fun p => p.value ≠ none).map fun p => p.date).dedup).toFinset.card := h3
      _ ≤ (df.map fun r => r.country).dedup.length * (ey - sy + 1).toNat := by
          rw [hCcard]
          exact Nat.mul_le_mul_left _ hDcard

/-- Auxiliary: under the provider contract every summary row's completeness
lies in the unit interval. -/
theorem aux_completeness_bounds (dict : List (String × String))
    (fetch : String → Except Unit (List WBPoint)) (sy ey : Int)
    (hnd : (dict.map Prod.fst).Nodup)
    (hf : ∀ code, validFetchB (fetch code) sy ey = true) :
    ∀ row ∈ rankResults dict (fetchAll dict fetch) sy ey,
      0 ≤ row.completeness ∧ row.completeness ≤ 1 := by
  intro row hrow
  rcases List.mem_map.mp hrow with ⟨kv, hkv, hrow2⟩
  subst hrow2
  by_cases htp : 0 < totalPossible (fetchAll dict fetch) sy ey
  · constructor
    · show (0 : ℚ) ≤ if _ then _ else _
      rw [if_pos htp]
      apply div_nonneg (Nat.cast_nonneg _)
      exact_mod_cast htp.le
    · show (if _ then _ else _ : ℚ) ≤ 1
      rw [if_pos htp]
      have hkey : kv.1 ∈ dict.map Prod.fst := List.mem_map.mpr ⟨kv, hkv, rfl⟩
      have hfil : (fetchAll dict fetch).filter (fun r => r.indicator = kv.1) =
          fetchBlock fetch kv.1 := aux_filter_fetchAll fetch kv.1 dict hnd hkey
      have hsub : ∀ r ∈ fetchBlock fetch kv.1, r ∈ fetchAll dict fetch := by
        intro r hr
        exact List.mem_flatMap.mpr ⟨kv, hkv, hr⟩
      have hble := aux_block_le fetch kv.1 sy ey (fetchAll dict fetch) (hf kv.1) hsub
      have hy1 : 0 < ey - sy + 1 := by
        by_contra hneg
        push_neg at hneg
        have hnp : totalPossible (fetchAll dict fetch) sy ey ≤ 0 := by
          unfold totalPossible
          exact mul_nonpos_of_nonneg_of_nonpos (Int.ofNat_nonneg _) hneg
        exact absurd htp (not_lt.mpr hnp)
      have hcnt : ((fetchAll dict fetch).filter (fun r => r.indicator = kv.1)).length ≤
          ((fetchAll dict fetch).map fun r => r.country).dedup.length * (ey - sy + 1).toNat := by
        rw [hfil]
        exact hble
      have hcnt2 : (((fetchAll dict fetch).filter (fun r => r.indicator = kv.1)).length : Int) ≤
          totalPossible (fetchAll dict fetch) sy ey := by
        unfold totalPossible
        calc (((fetchAll dict fetch).filter (fun r => r.indicator = kv.1)).length : Int)
            ≤ ((((fetchAll dict fetch).map fun r => r.country).dedup.length *
                (ey - sy + 1).toNat : Nat) : Int) := by exact_mod_cast hcnt
          _ = (((fetchAll dict fetch).map fun r => r.country).dedup.length : Int) *
                (ey - sy + 1) := by
              push_cast
              rw [Int.toNat_of_nonneg hy1.le]
      apply div_le_one_of_le
      · exact_mod_cast hcnt2
      · exact_mod_cast htp.le
  · refine ⟨?_, ?_⟩
    · show (0 : ℚ) ≤ if _ then _ else _
      rw [if_neg htp]
    · show (if _ then _ else _ : ℚ) ≤ 1
      rw [if_neg htp]
      exact zero_le_one

/-- C1 counterexample: a failing catalog retrieval propagates out of
rank_indicators_by_completeness instead of being caught; the call does not
return the pair (None, None).  The retrieval sits on line 13 of
completeness.py, before the try block that starts on line 20. -/
theorem C1_counterexample :
    rank_indicators_by_completeness (Except.error ()) (fun _ => Except.ok []) 2000 2020 10 =
        Except.error () ∧
    rank_indicators_by_completeness (Except.error ()) (fun _ => Except.ok []) 2000 2020 10 ≠
        Except.ok (none, none) := by
  exact ⟨rfl, by simp [rank_indicators_by_completeness]⟩

/-- C1 amended: every failure inside the try block is caught and turned into
the returned pair (None, None), and a successful catalog retrieval never lets
an exception escape; but a failure of the catalog retrieval itself happens
before the try block and propagates to the caller. -/
theorem C1_amended_catalog_failure_propagates (catalog : Except Unit (List (String × String)))
    (fetch : String → Except Unit (List WBPoint)) (sy ey : Int) (n : Nat) :
    (∀ e, catalog = .error e →
      rank_indicators_by_completeness catalog fetch sy ey n = .error e) ∧
    (∀ inds, catalog = .ok inds →
      (tryBody (pyDict inds) fetch sy ey = .error () →
        rank_indicators_by_completeness catalog fetch sy ey n = .ok (none, none)) ∧
      ∃ pair, rank_indicators_by_completeness catalog fetch sy ey n = .ok pair) := by
  constructor
  · intro e he
    subst he
    rfl
  · intro inds he
    subst he
    constructor
    · intro htb
      simp [rank_indicators_by_completeness, htb]
    · cases htb : tryBody (pyDict inds) fetch sy ey with
      | error e =>
        exact ⟨(none, none), by simp [rank_indicators_by_completeness, htb]⟩
      | ok pr =>
        exact ⟨(some pr.1, some pr.2), by simp [rank_indicators_by_completeness, htb]⟩

/-- C1 witness: the amended theorem applied at a concrete successful catalog. -/
theorem C1_witness :
    ∃ pair, rank_indicators_by_completeness (Except.ok [("A", "a")])
        (fun _ => Except.error ()) 2000 2020 5 = Except.ok pair :=
  ((C1_amended_catalog_failure_propagates (Except.ok [("A", "a")])
    (fun _ => Except.error ()) 2000 2020 5).2 [("A", "a")] rfl).2

/-- C2: on a successful call, every summary row's completeness is its count
divided by the shared denominator totalPossible (distinct countries in the
accumulated table times end_year - start_year + 1), is defined as 0 when the
denominator is not positive, and always lies in the unit interval, given the
provider contract of annual data over the requested range. -/
theorem C2_completeness_ratio (inds : List (String × String))
    (fetch : String → Except Unit (List WBPoint)) (sy ey : Int) (n : Nat)
    (hy : (validYear sy && validYear ey) = true)
    (hf : ∀ code, validFetchB (fetch code) sy ey = true) :
    ∃ top df, rank_indicators_by_completeness (.ok inds) fetch sy ey n = .ok (some top, some df) ∧
      ∀ row ∈ top,
        row.count = (df.filter fun r => r.indicator = row.code).length ∧
        row.completeness =
          (if 0 < totalPossible df sy ey then
            (row.count : ℚ) / ((totalPossible df sy ey : Int) : ℚ)
          else 0) ∧
        0 ≤ row.completeness ∧ row.completeness ≤ 1 := by
  refine ⟨sortDesc (rankResults (pyDict inds) (fetchAll (pyDict inds) fetch) sy ey),
    fetchAll (pyDict inds) fetch, ?_, ?_⟩
  · simp [rank_indicators_by_completeness, tryBody, hy]
  · intro row hrow
    have hrow2 : row ∈ rankResults (pyDict inds) (fetchAll (pyDict inds) fetch) sy ey :=
      (aux_sortDesc_perm _).mem_iff.mp hrow
    have hb := aux_completeness_bounds (pyDict inds) fetch sy ey
      (aux_pyDict_keys_nodup inds) hf row hrow2
    rcases List.mem_map.mp hrow2 with ⟨kv, _, hrow3⟩
    subst hrow3
    exact ⟨rfl, rfl, hb⟩

/-- C2 witness: the theorem applied at a concrete catalog and provider. -/
theorem C2_witness :
    ∃ top df, rank_indicators_by_completeness (.ok [("A", "a"), ("B", "b")])
        (fun _ => Except.ok [⟨"US", "2000", some 1⟩]) 2000 2020 7 = .ok (some top, some df) ∧
      ∀ row ∈ top,
        row.count = (df.filter fun r => r.indicator = row.code).length ∧
        row.completeness =
          (if 0 < totalPossible df 2000 2020 then
            (row.count : ℚ) / ((totalPossible df 2000 2020 : Int) : ℚ)
          else 0) ∧
        0 ≤ row.completeness ∧ row.completeness ≤ 1 :=
  C2_completeness_ratio [("A", "a"), ("B", "b")]
    (fun _ => Except.ok [⟨"US", "2000", some 1⟩]) 2000 2020 7
    (by decide)
    (fun _ =>
      (by decide : validFetchB (Except.ok [⟨"US", "2000", some 1⟩]) 2000 2020 = true))

/-- C3: on a successful call the summary has exactly one row per catalog
indicator — its codes are a permutation of the catalog's codes — and the
top_n argument has no effect on the result at all. -/
theorem C3_one_row_per_indicator (inds : List (String × String))
    (fetch : String → Except Unit (List WBPoint)) (sy ey : Int)
    (hnd : (inds.map Prod.fst).Nodup)
    (hy : (validYear sy && validYear ey) = true) :
    (∀ n1 n2 : Nat, rank_indicators_by_completeness (.ok inds) fetch sy ey n1 =
        rank_indicators_by_completeness (.ok inds) fetch sy ey n2) ∧
    ∀ n : Nat, ∃ top df,
      rank_indicators_by_completeness (.ok inds) fetch sy ey n = .ok (some top, some df) ∧
      (top.map fun r => r.code).Perm (inds.map Prod.fst) := by
  constructor
  · intro n1 n2
    rfl
  · intro n
    refine ⟨sortDesc (rankResults (pyDict inds) (fetchAll (pyDict inds) fetch) sy ey),
      fetchAll (pyDict inds) fetch, ?_, ?_⟩
    · simp [rank_indicators_by_completeness, tryBody, hy]
    · have h1 : ((sortDesc (rankResults (pyDict inds) (fetchAll (pyDict inds) fetch) sy ey)).map
          fun r => r.code).Perm
          ((rankResults (pyDict inds) (fetchAll (pyDict inds) fetch) sy ey).map fun r => r.code) :=
        (aux_sortDesc_perm _).map _
      have h2 : (rankResults (pyDict inds) (fetchAll (pyDict inds) fetch) sy ey).map
          (fun r => r.code) = (pyDict inds).map Prod.fst := by
        unfold rankResults
        rw [List.map_map]
        rfl
      have h3 : (pyDict inds).map Prod.fst = inds.map Prod.fst := by
        rw [aux_pyDict_eq_self inds hnd]
      exact (h2.trans h3) ▸ h1

/-- C3 witness: the theorem applied at a concrete duplicate-free catalog. -/
theorem C3_witness :
    (∀ n1 n2 : Nat, rank_indicators_by_completeness (.ok [("A", "a"), ("B", "b")])
        (fun _ => Except.ok []) 2000 2020 n1 =
      rank_indicators_by_completeness (.ok [("A", "a"), ("B", "b")])
        (fun _ => Except.ok []) 2000 2020 n2) ∧
    ∀ n : Nat, ∃ top df,
      rank_indicators_by_completeness (.ok [("A", "a"), ("B", "b")])
        (fun _ => Except.ok []) 2000 2020 n = .ok (some top, some df) ∧
      (top.map fun r => r.code).Perm (([("A", "a"), ("B", "b")] :
        List (String × String)).map Prod.fst) :=
  C3_one_row_per_indicator [("A", "a"), ("B", "b")] (fun _ => Except.ok []) 2000 2020
    (by decide) (by decide)

/-- Auxiliary: length of a column-major unpivot. -/
theorem aux_flatMap_map_length {α β γ : Type} (vv : List α) (rows : List β) (g : α → β → γ) :
    (vv.flatMap fun v => rows.map (g v)).length = vv.length * rows.length := by
  induction vv with
  | nil => simp
  | cons v vs ih => simp [ih, Nat.succ_mul, Nat.add_comm]

/-- Auxiliary: on a parseable year suffix the row cast succeeds with the total
extraction. -/
theorem aux_hdiLongRow_ok (indicators : List (String × String)) (m : MeltHDI)
    (h : (parseInt (rsplitUnderscore m.metric_year).2).isSome = true) :
    hdiLongRow indicators m = .ok (hdiLongRowT indicators m) := by
  unfold hdiLongRow hdiLongRowT
  cases hp : parseInt (rsplitUnderscore m.metric_year).2 with
  | none => rw [hp] at h; simp at h
  | some y => simp [hp]

/-- Auxiliary: explicit successful output of the reshaper. -/
theorem aux_reshape_ok (df : DF) (indicators : List (String × String))
    (hid : hdiIdVars.all (df.cols.contains ·) = true)
    (hpar : ∀ v ∈ hdiValueVars df.cols indicators,
      (parseInt (rsplitUnderscore v).2).isSome = true) :
    reshape_long_HDI df indicators = .ok
      (((hdiValueVars df.cols indicators).flatMap fun v => df.rows.map fun r =>
        (⟨cellAt df.cols r "iso3", cellAt df.cols r "country", cellAt df.cols r "region",
          v, cellAt df.cols r v⟩ : MeltHDI)).map (hdiLongRowT indicators)) := by
  have hmelt : meltHDI df (hdiValueVars df.cols indicators) = .ok
      ((hdiValueVars df.cols indicators).flatMap fun v => df.rows.map fun r =>
        (⟨cellAt df.cols r "iso3", cellAt df.cols r "country", cellAt df.cols r "region",
          v, cellAt df.cols r v⟩ : MeltHDI)) := by
    simp only [meltHDI, hid, if_true]
  have hall : ∀ m ∈ ((hdiValueVars df.cols indicators).flatMap fun v => df.rows.map fun r =>
      (⟨cellAt df.cols r "iso3", cellAt df.cols r "country", cellAt df.cols r "region",
        v, cellAt df.cols r v⟩ : MeltHDI)),
      (parseInt (rsplitUnderscore m.metric_year).2).isSome = true := by
    intro m hm
    rcases List.mem_flatMap.mp hm with ⟨v, hv, hm2⟩
    rcases List.mem_map.mp hm2 with ⟨r, _, hm3⟩
    subst hm3
    exact hpar v hv
  have hmm := aux_mapME_ok (hdiLongRow indicators) (hdiLongRowT indicators) _
    fun m hm => aux_hdiLongRow_ok indicators m (hall m hm)
  unfold reshape_long_HDI
  rw [hmelt]
  exact hmm

/-- Auxiliary: a key outside the mapping's key list looks up to nothing. -/
theorem aux_lookup_eq_none {β : Type} (k : String) :
    ∀ l : List (String × β), k ∉ l.map Prod.fst → List.lookup k l = none := by
  intro l
  induction l with
  | nil => intro _; rfl
  | cons kv rest ih =>
    intro h
    obtain ⟨k1, v1⟩ := kv
    simp only [List.map_cons, List.mem_cons] at h
    push_neg at h
    have hne : (k == k1) = false := beq_eq_false_iff_ne.mpr h.1
    simp [List.lookup, hne, ih h.2]

/-- Auxiliary: consecutive filters commute. -/
theorem aux_filter_comm {α : Type} (p q : α → Bool) (l : List α) :
    List.filter p (List.filter q l) = List.filter q (List.filter p l) := by
  simp [List.filter_filter, Bool.and_comm]

/-- C5: when the reshaper succeeds it emits exactly rows-times-value-columns
long rows, column-major, and each long row's value is the untouched wide cell
— a missing cell stays missing, it does not become zero. -/
theorem C5_reshape_row_count (df : DF) (indicators : List (String × String))
    (hid : hdiIdVars.all (df.cols.contains ·) = true)
    (hpar : ∀ v ∈ hdiValueVars df.cols indicators,
      (parseInt (rsplitUnderscore v).2).isSome = true) :
    ∃ long, reshape_long_HDI df indicators = .ok long ∧
      long.length = df.rows.length * (hdiValueVars df.cols indicators).length ∧
      long.map (fun r => r.value) =
        (hdiValueVars df.cols indicators).flatMap fun v =>
          df.rows.map fun r => cellAt df.cols r v := by
  refine ⟨_, aux_reshape_ok df indicators hid hpar, ?_, ?_⟩
  · rw [List.length_map, aux_flatMap_map_length]
    exact Nat.mul_comm _ _
  · rw [List.map_map]
    have hcomp : ((fun r : LongHDI => r.value) ∘ hdiLongRowT indicators) =
        fun m : MeltHDI => m.value := rfl
    rw [hcomp, List.map_flatMap]
    simp only [List.map_map]
    rfl

/-- C5 witness: the theorem applied to the concrete example table. -/
theorem C5_witness :
    ∃ long, reshape_long_HDI exampleHDI exampleMapping = .ok long ∧
      long.length = exampleHDI.rows.length *
        (hdiValueVars exampleHDI.cols exampleMapping).length ∧
      long.map (fun r => r.value) =
        (hdiValueVars exampleHDI.cols exampleMapping).flatMap fun v =>
          exampleHDI.rows.map fun r => cellAt exampleHDI.cols r v :=
  C5_reshape_row_count exampleHDI exampleMapping (by decide) (by decide)

/-- C6: on a successful reshape no lookup failure is raised: every long row
carries the mapping lookup of its metric as metric_name, which is the missing
value whenever the metric is not a key of the mapping, and the rows for such
columns are still all emitted. -/
theorem C6_unmapped_metric_null_name (df : DF) (indicators : List (String × String))
    (hid : hdiIdVars.all (df.cols.contains ·) = true)
    (hpar : ∀ v ∈ hdiValueVars df.cols indicators,
      (parseInt (rsplitUnderscore v).2).isSome = true) :
    ∃ long, reshape_long_HDI df indicators = .ok long ∧
      long.length = df.rows.length * (hdiValueVars df.cols indicators).length ∧
      ∀ row ∈ long, row.metric_name = List.lookup row.metric indicators ∧
        (row.metric ∉ indicators.map Prod.fst → row.metric_name = none) := by
  refine ⟨_, aux_reshape_ok df indicators hid hpar, ?_, ?_⟩
  · rw [List.length_map, aux_flatMap_map_length]
    exact Nat.mul_comm _ _
  · intro row hrow
    rcases List.mem_map.mp hrow with ⟨m, _, hm⟩
    subst hm
    refine ⟨rfl, ?_⟩
    intro hnk
    exact aux_lookup_eq_none _ indicators hnk

/-- C6 witness: the theorem applied to the concrete example table. -/
theorem C6_witness :
    ∃ long, reshape_long_HDI exampleHDI exampleMapping = .ok long ∧
      long.length = exampleHDI.rows.length *
        (hdiValueVars exampleHDI.cols exampleMapping).length ∧
      ∀ row ∈ long, row.metric_name = List.lookup row.metric exampleMapping ∧
        (row.metric ∉ exampleMapping.map Prod.fst → row.metric_name = none) :=
  C6_unmapped_metric_null_name exampleHDI exampleMapping (by decide) (by decide)

/-- Auxiliary: a single row cast of the HDI reshaper fails only with the
ValueError of the integer conversion. -/
theorem aux_hdiLongRow_err (indicators : List (String × String)) (m : MeltHDI) (e : Err)
    (h : hdiLongRow indicators m = .error e) :
    e = Err.valueError "invalid literal for int" := by
  cases hp : parseInt (rsplitUnderscore m.metric_year).2 with
  | none =>
    have hcomp : hdiLongRow indicators m = .error (.valueError "invalid literal for int") := by
      unfold hdiLongRow
      simp [hp]
    rw [hcomp] at h
    exact (Except.error.inj h).symm
  | some y =>
    have hcomp : hdiLongRow indicators m = .ok ⟨m.iso3, m.country, m.region, m.value,
        (rsplitUnderscore m.metric_year).1, y,
        List.lookup (rsplitUnderscore m.metric_year).1 indicators⟩ := by
      unfold hdiLongRow
      simp [hp]
    rw [hcomp] at h
    cases h

/-- Auxiliary: the row casts of the HDI reshaper fail only with ValueError. -/
theorem aux_mapME_hdi_err (indicators : List (String × String)) :
    ∀ (l : List MeltHDI) (e : Err),
      mapME (hdiLongRow indicators) l = .error e → ∃ msg, e = Err.valueError msg := by
  intro l
  induction l with
  | nil =>
    intro e h
    cases h
  | cons m rest ih =>
    intro e h
    rw [mapME] at h
    cases hm : hdiLongRow indicators m with
    | error e2 =>
      rw [hm] at h
      have he2 : (Except.error e2 : Except Err (List LongHDI)) = Except.error e := h
      have he3 := Except.error.inj he2
      exact ⟨"invalid literal for int",
        he3 ▸ aux_hdiLongRow_err indicators m e2 hm⟩
    | ok b =>
      rw [hm] at h
      cases hr : mapME (hdiLongRow indicators) rest with
      | error e3 =>
        rw [hr] at h
        have he2 : (Except.error e3 : Except Err (List LongHDI)) = Except.error e := h
        have he3 := Except.error.inj he2
        exact he3 ▸ ih e3 hr
      | ok bs =>
        rw [hr] at h
        have hok : (Except.ok (b :: bs) : Except Err (List LongHDI)) = Except.error e := h
        cases hok

/-- C10: the reshaper requires the id columns iso3, country and region: when
any of them is absent the unpivot raises KeyError, both for the reshaper on
its input table and for get_data_HDI after column standardisation; and when
all three are present the reshaper never raises KeyError. -/
theorem C10_id_columns_required (df : DF) (indicators : List (String × String)) :
    (hdiIdVars.all (df.cols.contains ·) ≠ true →
      reshape_long_HDI df indicators = .error (.keyError "id_vars not present in the DataFrame")) ∧
    (hdiIdVars.all ((df.cols.map normName).contains ·) ≠ true →
      ∀ countries sy ey, get_data_HDI df indicators countries sy ey =
        .error (.keyError "id_vars not present in the DataFrame")) ∧
    (hdiIdVars.all (df.cols.contains ·) = true →
      ∀ msg, reshape_long_HDI df indicators ≠ .error (.keyError msg)) := by
  refine ⟨?_, ?_, ?_⟩
  · intro h
    have hb : (hdiIdVars.all (df.cols.contains ·)) = false := by
      cases hv : hdiIdVars.all (df.cols.contains ·) with
      | false => rfl
      | true => exact absurd hv h
    unfold reshape_long_HDI meltHDI
    rw [hb]
    rfl
  · intro h countries sy ey
    have hb : (hdiIdVars.all ((df.cols.map normName).contains ·)) = false := by
      cases hv : hdiIdVars.all ((df.cols.map normName).contains ·) with
      | false => rfl
      | true => exact absurd hv h
    have hsh : reshape_long_HDI (normalizeCols df) indicators =
        .error (.keyError "id_vars not present in the DataFrame") := by
      unfold reshape_long_HDI meltHDI normalizeCols
      rw [hb]
      rfl
    unfold get_data_HDI
    rw [hsh]
    rfl
  · intro hid msg h
    unfold reshape_long_HDI meltHDI at h
    rw [hid] at h
    simp only [if_true] at h
    rcases aux_mapME_hdi_err indicators _ _ h with ⟨m2, hm2⟩
    simp at hm2

/-- C10 witness: a table lacking the region column makes the reshaper raise
KeyError. -/
theorem C10_witness :
    reshape_long_HDI ⟨["iso3", "country", "edu_2010"], []⟩ [("edu", "E")] =
      .error (.keyError "id_vars not present in the DataFrame") :=
  (C10_id_columns_required ⟨["iso3", "country", "edu_2010"], []⟩ [("edu", "E")]).1 (by decide)

/-- Auxiliary: the country-keep predicate only depends on the lowercased
filter list. -/
theorem aux_countryKeep_congr (cs1 cs2 : List String)
    (h : cs1.map strLower = cs2.map strLower) : countryKeep cs1 = countryKeep cs2 := by
  funext c
  cases c with
  | na => rfl
  | num q => rfl
  | str s => simp [countryKeep, h]

/-- Auxiliary: the country-filter block only depends on the lowercased filter
list. -/
theorem aux_applyCountryFilter_congr {α : Type} (getc : α → Cell) (cs1 cs2 : List String)
    (h : cs1.map strLower = cs2.map strLower) :
    applyCountryFilter getc (some cs1) = applyCountryFilter getc (some cs2) := by
  funext l
  simp [applyCountryFilter, aux_countryKeep_congr cs1 cs2 h]

/-- Auxiliary: get_data_HDI is the filter pipeline mapped over the reshape
result. -/
theorem aux_get_data_HDI_eq (df0 : DF) (ind : List (String × String))
    (countries : Option (List String)) (sy ey : Option Int) :
    get_data_HDI df0 ind countries sy ey =
      Except.map (fun long =>
        applyUpperBound (fun r => r.year) ey
          (applyLowerBound (fun r => r.year) sy
            (applyCountryFilter (fun r => r.country) countries long)))
        (reshape_long_HDI (normalizeCols df0) ind) := by
  cases h : reshape_long_HDI (normalizeCols df0) ind with
  | error e =>
    unfold get_data_HDI
    rw [h]
    rfl
  | ok long =>
    unfold get_data_HDI
    rw [h]
    rfl

/-- Auxiliary: the lower year bound commutes with any other row filter. -/
theorem aux_applyLowerBound_filter {α : Type} (gety : α → Int) (p : α → Bool)
    (sy : Option Int) (l : List α) :
    applyLowerBound gety sy (l.filter p) = (applyLowerBound gety sy l).filter p := by
  cases sy with
  | none => rfl
  | some s =>
    simp only [applyLowerBound]
    exact aux_filter_comm _ _ _

/-- Auxiliary: the upper year bound commutes with any other row filter. -/
theorem aux_applyUpperBound_filter {α : Type} (gety : α → Int) (p : α → Bool)
    (ey : Option Int) (l : List α) :
    applyUpperBound gety ey (l.filter p) = (applyUpperBound gety ey l).filter p := by
  cases ey with
  | none => rfl
  | some e =>
    simp only [applyUpperBound]
    exact aux_filter_comm _ _ _

/-- C7: the country filter of both loaders is case-insensitive — two filter
lists equal up to letter case give identical results — and filtering is
exactly restriction by the lowercased-membership predicate: the filtered call
equals the unfiltered call restricted to rows whose lowercased country is in
the lowercased filter set, and a row is in the filtered output iff it is in
the unfiltered output and satisfies that predicate. -/
theorem C7_country_filter_case_insensitive (df0 : DF) (ind : List (String × String))
    (cs1 cs2 : List String) (sy ey : Option Int)
    (files : String → Option DF) (fp : String)
    (hcs : cs1.map strLower = cs2.map strLower) :
    get_data_HDI df0 ind (some cs1) sy ey = get_data_HDI df0 ind (some cs2) sy ey ∧
    get_data_EPI files ind (some cs1) sy ey fp = get_data_EPI files ind (some cs2) sy ey fp ∧
    get_data_HDI df0 ind (some cs1) sy ey =
      Except.map (List.filter fun r => countryKeep cs1 r.country)
        (get_data_HDI df0 ind none sy ey) ∧
    get_data_EPI files ind (some cs1) sy ey fp =
      Except.map (List.filter fun r => countryKeep cs1 r.country)
        (get_data_EPI files ind none sy ey fp) ∧
    ∀ base out r, get_data_HDI df0 ind none sy ey = .ok base →
      get_data_HDI df0 ind (some cs1) sy ey = .ok out →
      (r ∈ out ↔ r ∈ base ∧ countryKeep cs1 r.country = true) := by
  have hHDI : get_data_HDI df0 ind (some cs1) sy ey =
      Except.map (List.filter fun r => countryKeep cs1 r.country)
        (get_data_HDI df0 ind none sy ey) := by
    rw [aux_get_data_HDI_eq df0 ind (some cs1) sy ey,
      aux_get_data_HDI_eq df0 ind none sy ey]
    cases h : reshape_long_HDI (normalizeCols df0) ind with
    | error e => rfl
    | ok long =>
      show Except.ok _ = Except.ok _
      simp only [applyCountryFilter]
      rw [aux_applyLowerBound_filter, aux_applyUpperBound_filter]
  refine ⟨?_, ?_, hHDI, ?_, ?_⟩
  · rw [aux_get_data_HDI_eq df0 ind (some cs1) sy ey,
      aux_get_data_HDI_eq df0 ind (some cs2) sy ey,
      aux_applyCountryFilter_congr (fun r : LongHDI => r.country) cs1 cs2 hcs]
  · cases h : mapME (fun kv => epiLoadVar files fp kv.1 kv.2) ind with
    | error e =>
      unfold get_data_EPI
      rw [h]
      rfl
    | ok tables =>
      unfold get_data_EPI
      rw [h, aux_applyCountryFilter_congr (fun r : LongEPI => r.country) cs1 cs2 hcs]
  · cases h : mapME (fun kv => epiLoadVar files fp kv.1 kv.2) ind with
    | error e =>
      unfold get_data_EPI
      rw [h]
      rfl
    | ok tables =>
      unfold get_data_EPI
      rw [h]
      cases sy with
      | none => rfl
      | some s =>
        cases ey with
        | none => rfl
        | some e =>
          show Except.ok _ = Except.map _ (Except.ok _)
          simp only [applyCountryFilter, Except.map]
          exact congrArg Except.ok (aux_filter_comm _ _ _)
  · intro base out r hbase hout
    rw [hHDI, hbase] at hout
    have hout2 : (base.filter fun r => countryKeep cs1 r.country) = out :=
      Except.ok.inj hout
    rw [← hout2]
    simp [List.mem_filter]

/-- C7 witness: the theorem applied with the filter lists us and US. -/
theorem C7_witness :
    get_data_HDI exampleHDI exampleMapping (some ["us"]) none none =
      get_data_HDI exampleHDI exampleMapping (some ["US"]) none none ∧
    get_data_EPI (fun _ => none) exampleMapping (some ["us"]) none none "P5" =
      get_data_EPI (fun _ => none) exampleMapping (some ["US"]) none none "P5" ∧
    get_data_HDI exampleHDI exampleMapping (some ["us"]) none none =
      Except.map (List.filter fun r => countryKeep ["us"] r.country)
        (get_data_HDI exampleHDI exampleMapping none none none) ∧
    get_data_EPI (fun _ => none) exampleMapping (some ["us"]) none none "P5" =
      Except.map (List.filter fun r => countryKeep ["us"] r.country)
        (get_data_EPI (fun _ => none) exampleMapping none none none "P5") ∧
    ∀ base out r, get_data_HDI exampleHDI exampleMapping none none none = .ok base →
      get_data_HDI exampleHDI exampleMapping (some ["us"]) none none = .ok out →
      (r ∈ out ↔ r ∈ base ∧ countryKeep ["us"] r.country = true) :=
  C7_country_filter_case_insensitive exampleHDI exampleMapping ["us"] ["US"] none none
    (fun _ => none) "P5" (by decide)

/-- C8: the year bounds of get_data_HDI are inclusive and optional: the
bounded call equals the unbounded call filtered by the inclusive predicate,
an omitted bound is simply not applied, rows at year exactly start_year or
end_year survive the filter, and rows at start_year - 1 or end_year + 1 are
removed by it. -/
theorem C8_year_filter_inclusive (df0 : DF) (ind : List (String × String))
    (countries : Option (List String)) (sy ey : Int) (hle : sy ≤ ey) :
    get_data_HDI df0 ind countries (some sy) (some ey) =
      Except.map (List.filter fun r => decide (sy ≤ r.year) && decide (r.year ≤ ey))
        (get_data_HDI df0 ind countries none none) ∧
    get_data_HDI df0 ind countries (some sy) none =
      Except.map (List.filter fun r => decide (sy ≤ r.year))
        (get_data_HDI df0 ind countries none none) ∧
    get_data_HDI df0 ind countries none (some ey) =
      Except.map (List.filter fun r => decide (r.year ≤ ey))
        (get_data_HDI df0 ind countries none none) ∧
    ∀ base, get_data_HDI df0 ind countries none none = .ok base →
      ∀ r ∈ base,
        ((r.year = sy ∨ r.year = ey) →
          r ∈ base.filter fun r => decide (sy ≤ r.year) && decide (r.year ≤ ey)) ∧
        (r.year = sy - 1 →
          r ∉ base.filter fun r => decide (sy ≤ r.year) && decide (r.year ≤ ey)) ∧
        (r.year = ey + 1 →
          r ∉ base.filter fun r => decide (sy ≤ r.year) && decide (r.year ≤ ey)) := by
  refine ⟨?_, ?_, ?_, ?_⟩
  · rw [aux_get_data_HDI_eq df0 ind countries (some sy) (some ey),
      aux_get_data_HDI_eq df0 ind countries none none]
    cases h : reshape_long_HDI (normalizeCols df0) ind with
    | error e => rfl
    | ok long =>
      show Except.ok _ = Except.ok _
      simp only [applyUpperBound, applyLowerBound, List.filter_filter]
      rw [List.filter_congr]
      intro r _
      simp [Bool.and_comm]
  · rw [aux_get_data_HDI_eq df0 ind countries (some sy) none,
      aux_get_data_HDI_eq df0 ind countries none none]
    cases h : reshape_long_HDI (normalizeCols df0) ind with
    | error e => rfl
    | ok long => rfl
  · rw [aux_get_data_HDI_eq df0 ind countries none (some ey),
      aux_get_data_HDI_eq df0 ind countries none none]
    cases h : reshape_long_HDI (normalizeCols df0) ind with
    | error e => rfl
    | ok long => rfl
  · intro base _ r hr
    refine ⟨?_, ?_, ?_⟩
    · intro hyr
      refine List.mem_filter.mpr ⟨hr, ?_⟩
      simp only [Bool.and_eq_true, decide_eq_true_eq]
      rcases hyr with h | h <;> constructor <;> omega
    · intro hyr hmem
      have h2 := (List.mem_filter.mp hmem).2
      simp only [Bool.and_eq_true, decide_eq_true_eq] at h2
      omega
    · intro hyr hmem
      have h2 := (List.mem_filter.mp hmem).2
      simp only [Bool.and_eq_true, decide_eq_true_eq] at h2
      omega

/-- C8 witness: the theorem applied at years 2010 and 2011 on the example
table. -/
theorem C8_witness :
    get_data_HDI exampleHDI exampleMapping none (some 2010) (some 2011) =
      Except.map (List.filter fun r => decide ((2010 : Int) ≤ r.year) && decide (r.year ≤ 2011))
        (get_data_HDI exampleHDI exampleMapping none none none) ∧
    get_data_HDI exampleHDI exampleMapping none (some 2010) none =
      Except.map (List.filter fun r => decide ((2010 : Int) ≤ r.year))
        (get_data_HDI exampleHDI exampleMapping none none none) ∧
    get_data_HDI exampleHDI exampleMapping none none (some 2011) =
      Except.map (List.filter fun r => decide (r.year ≤ (2011 : Int)))
        (get_data_HDI exampleHDI exampleMapping none none none) ∧
    ∀ base, get_data_HDI exampleHDI exampleMapping none none none = .ok base →
      ∀ r ∈ base,
        ((r.year = 2010 ∨ r.year = 2011) →
          r ∈ base.filter fun r => decide ((2010 : Int) ≤ r.year) && decide (r.year ≤ 2011)) ∧
        (r.year = 2010 - 1 →
          r ∉ base.filter fun r => decide ((2010 : Int) ≤ r.year) && decide (r.year ≤ 2011)) ∧
        (r.year = 2011 + 1 →
          r ∉ base.filter fun r => decide ((2010 : Int) ≤ r.year) && decide (r.year ≤ 2011)) :=
  C8_year_filter_inclusive exampleHDI exampleMapping none 2010 2011 (by decide)

/-- Auxiliary: the per-variable load loop fails as soon as any requested
variable's file is missing. -/
theorem aux_mapME_epi_missing (files : String → Option DF) (fp : String) :
    ∀ ind : List (String × String),
      (∃ kv ∈ ind, files (fp ++ "/" ++ kv.1 ++ "_ind_na.csv") = none) →
      ∃ e, mapME (fun kv => epiLoadVar files fp kv.1 kv.2) ind = .error e := by
  intro ind
  induction ind with
  | nil =>
    rintro ⟨kv, hkv, _⟩
    simp at hkv
  | cons kv0 rest ih =>
    rintro ⟨kv, hkv, hmiss⟩
    rw [mapME]
    cases h0 : epiLoadVar files fp kv0.1 kv0.2 with
    | error e => exact ⟨e, rfl⟩
    | ok b =>
      rcases List.mem_cons.mp hkv with heq | hkv2
      · exfalso
        subst heq
        unfold epiLoadVar at h0
        simp [hmiss] at h0
      · rcases ih ⟨kv, hkv2, hmiss⟩ with ⟨e, he⟩
        refine ⟨e, ?_⟩
        rw [he]
        rfl

/-- C9: a missing per-variable file makes get_data_EPI fail with no partial
output; when the first requested variable's file is missing the raised error
is exactly the FileNotFoundError naming that file. -/
theorem C9_epi_missing_file (files : String → Option DF) (ind : List (String × String))
    (countries : Option (List String)) (sy ey : Option Int) (fp : String) :
    ((∃ kv ∈ ind, files (fp ++ "/" ++ kv.1 ++ "_ind_na.csv") = none) →
      ∃ e, get_data_EPI files ind countries sy ey fp = .error e) ∧
    (∀ kv, ind.head? = some kv → files (fp ++ "/" ++ kv.1 ++ "_ind_na.csv") = none →
      get_data_EPI files ind countries sy ey fp =
        .error (.fileNotFound ("File " ++ (fp ++ "/" ++ kv.1 ++ "_ind_na.csv") ++
          " not found."))) := by
  constructor
  · intro hmiss
    rcases aux_mapME_epi_missing files fp ind hmiss with ⟨e, he⟩
    refine ⟨e, ?_⟩
    unfold get_data_EPI
    rw [he]
    rfl
  · intro kv hhead hmiss
    cases ind with
    | nil => cases hhead
    | cons kv0 rest =>
      have hkv : kv = kv0 := by
        simpa using hhead.symm
      subst hkv
      have h0 : epiLoadVar files fp kv.1 kv.2 =
          .error (.fileNotFound ("File " ++ (fp ++ "/" ++ kv.1 ++ "_ind_na.csv") ++
            " not found.")) := by
        unfold epiLoadVar
        simp [hmiss]
      unfold get_data_EPI
      rw [mapME, h0]
      rfl

/-- C9 witness: the theorem applied at a folder that lacks the BCA file. -/
theorem C9_witness :
    ∃ e, get_data_EPI (fun _ => none) [("BCA", "Biodiversity Conservation Area")]
      none (some 2000) (some 2005) "P5_Indicator" = .error e :=
  (C9_epi_missing_file (fun _ => none) [("BCA", "Biodiversity Conservation Area")]
    none (some 2000) (some 2005) "P5_Indicator").1
    ⟨("BCA", "Biodiversity Conservation Area"), by simp, rfl⟩
